import Mathlib

/-!
A verification development for the local-first caching and synchronization
subsystem of The-Uplink (src/database/inventory_cache.py, src/database/sku_cache.py,
src/database/db.py, src/database/inventory.py).

The SQLite tables are embedded as Lean lists of structures; each Python function
that the claims mention is translated into a pure Lean function over that state.
Timestamps (datetime.now().isoformat()) are passed in as explicit string
parameters.  Failure sources that the claims quantify over (an unreachable
remote database, a local storage fault, a failing bookkeeping write) appear
as explicit boolean/oracle parameters; in the Python code they are exceptions
caught by the corresponding try/except blocks.
-/

namespace Uplink

/-! ### Character-list utilities

SQLite compares TEXT values bytewise and Python compares strings by code
points; both coincide with lexicographic order on the character lists for the
data in play.  We use an explicit boolean lexicographic order on `List Char`
(the core `String` order does not reduce well in the kernel).
-/

/-- Boolean lexicographic order on character lists: the order SQLite's
`ORDER BY` and Python's `<`/`bisect` use on the strings involved. -/
def charListLt : List Char → List Char → Bool
  | [], [] => false
  | [], _ :: _ => true
  | _ :: _, [] => false
  | a :: as, b :: bs => if a < b then true else if b < a then false else charListLt as bs

/-- `a.upper()` from Python, restricted to the ASCII range the application uses. -/
def pyUpper (s : String) : String := ⟨s.data.map Char.toUpper⟩

/-- `a.strip()` from Python: drop whitespace from both ends. -/
def pyStrip (s : String) : String :=
  ⟨((s.data.dropWhile Char.isWhitespace).reverse.dropWhile Char.isWhitespace).reverse⟩

/-- `s.startswith(t)` from Python. -/
def pyStartsWith (s t : String) : Bool := t.data.isPrefixOf s.data

/-- Ordered insert used by `sortBy`. -/
def insertOrd {α : Type} (le : α → α → Bool) (a : α) : List α → List α
  | [] => [a]
  | b :: bs => if le a b then a :: b :: bs else b :: insertOrd le a bs

/-- Insertion sort.  Models SQL `ORDER BY` (and Python `sorted`) for the
comparator given; the claims only depend on the output being ordered by the
comparator and a permutation of the input. -/
def sortBy {α : Type} (le : α → α → Bool) : List α → List α
  | [] => []
  | a :: as => insertOrd le a (sortBy le as)

theorem mem_insertOrd {α : Type} (le : α → α → Bool) (a b : α) (l : List α) :
    b ∈ insertOrd le a l ↔ b = a ∨ b ∈ l := by
  induction l with
  | nil => simp [insertOrd]
  | cons c cs ih =>
    by_cases h : le a c = true
    · simp [insertOrd, h]
    · simp only [insertOrd, h, if_neg, Bool.not_eq_true] at *
      simp [List.mem_cons, ih]
      tauto

theorem length_insertOrd {α : Type} (le : α → α → Bool) (a : α) (l : List α) :
    (insertOrd le a l).length = l.length + 1 := by
  induction l with
  | nil => rfl
  | cons c cs ih =>
    by_cases h : le a c = true
    · simp [insertOrd, h]
    · simp [insertOrd, h, ih]

theorem mem_sortBy {α : Type} (le : α → α → Bool) (a : α) (l : List α) :
    a ∈ sortBy le l ↔ a ∈ l := by
  induction l with
  | nil => simp [sortBy]
  | cons c cs ih => simp [sortBy, mem_insertOrd, ih]

theorem length_sortBy {α : Type} (le : α → α → Bool) (l : List α) :
    (sortBy le l).length = l.length := by
  induction l with
  | nil => rfl
  | cons c cs ih => simp [sortBy, length_insertOrd, ih]

/-! ### Data model: transactional (inventory) cache

Local cache table `inventory` from `init_local_inventory_cache`
(src/database/inventory_cache.py): the nine remote columns plus
`sync_status`, `remote_id`, `last_modified`.  `id` is AUTOINCREMENT,
`serial_number` is UNIQUE.
-/

inductive SyncStatus where
  | pending
  | synced
deriving DecidableEq

/-- A row of the local `inventory` table. -/
structure Record where
  id : Nat
  item_sku : String
  serial_number : String
  lpn : String
  location : String
  repair_state : String
  entered_by : String
  created_at : String
  order_number : String
  sync_status : SyncStatus
  remote_id : Option Nat
  last_modified : String
deriving DecidableEq

/-- A row of the local `imported_inventory` mirror table. -/
structure ImportedRecord where
  id : Nat
  item_sku : String
  serial_number : String
  lpn : String
  location : String
  repair_state : String
  entered_by : String
  created_at : String
  imported_at : String
  order_number : String
deriving DecidableEq

/-- The per-project local cache database: `inventory`, `imported_inventory`
and the key-value `sync_metadata` table.  `nextId` is the AUTOINCREMENT
counter of `inventory`. -/
structure LocalCache where
  inventory : List Record
  nextId : Nat
  importedInventory : List ImportedRecord
  syncMetadata : List (String × String)
deriving DecidableEq

/-- `INSERT OR REPLACE INTO sync_metadata (key, value) VALUES (?, ?)`. -/
def metaSet (m : List (String × String)) (k v : String) : List (String × String) :=
  if m.any (fun kv => kv.1 == k) then m.map (fun kv => if kv.1 == k then (k, v) else kv)
  else m ++ [(k, v)]

/-- A row of the remote active `inventory` table (src/database/inventory.py
schema; `tracking_number` is added by `init_inventory_db` with default ''). -/
structure RemoteRow where
  id : Nat
  item_sku : String
  serial_number : String
  lpn : String
  location : String
  repair_state : String
  entered_by : String
  created_at : String
  order_number : String
  tracking_number : String
deriving DecidableEq

/-- The remote active inventory database of one project. -/
structure RemoteActive where
  rows : List RemoteRow
  nextId : Nat
deriving DecidableEq

/-- A row of the remote `imported_inventory` table. -/
structure RemoteImportedRow where
  id : Nat
  item_sku : String
  serial_number : String
  lpn : String
  location : String
  repair_state : String
  entered_by : String
  created_at : String
  imported_at : String
  order_number : String
  tracking_number : String
deriving DecidableEq

/-- The remote imported inventory database of one project. -/
structure RemoteImported where
  rows : List RemoteImportedRow
  nextId : Nat
deriving DecidableEq

/-- The row shape returned by `get_all_inventory_cached` (it selects ten
columns; `remote_id` and `last_modified` are not exposed). -/
structure RecordView where
  id : Nat
  item_sku : String
  serial_number : String
  lpn : String
  location : String
  repair_state : String
  entered_by : String
  created_at : String
  order_number : String
  sync_status : SyncStatus
deriving DecidableEq

def viewOf (r : Record) : RecordView :=
  { id := r.id, item_sku := r.item_sku, serial_number := r.serial_number, lpn := r.lpn,
    location := r.location, repair_state := r.repair_state, entered_by := r.entered_by,
    created_at := r.created_at, order_number := r.order_number, sync_status := r.sync_status }

/-! ### Read operations (src/database/inventory_cache.py, local only) -/

/-- `get_all_inventory_cached(project, limit, offset)`: select the ten view
columns ordered by `created_at DESC`; `LIMIT` is appended only when `limit`
is truthy and `OFFSET` only when `offset` is truthy. -/
def get_all_inventory_cached (c : LocalCache) (limit : Option Nat) (offset : Nat) :
    List RecordView :=
  let sorted := sortBy (fun a b => !charListLt a.created_at.data b.created_at.data) c.inventory
  let sliced :=
    match limit with
    | none => sorted
    | some n =>
      if n = 0 then sorted
      else if offset ≠ 0 then (sorted.drop offset).take n
      else sorted.take n
  sliced.map viewOf

/-- `get_inventory_count_cached(project)`: `SELECT COUNT(*) FROM inventory`. -/
def get_inventory_count_cached (c : LocalCache) : Nat := c.inventory.length

/-! ### Write operations (src/database/inventory_cache.py, local first) -/

/-- `add_inventory_item_cached`: one local INSERT with `sync_status='pending'`
and both timestamps set to `now`.  `storageFault` models the broad
`except Exception` path (local storage failure); a duplicate `serial_number`
raises `sqlite3.IntegrityError` (UNIQUE constraint); both return `False`
with nothing committed. -/
def add_inventory_item_cached (storageFault : Bool) (c : LocalCache)
    (item_sku serial_number lpn repair_state entered_by location order_number now : String) :
    Bool × LocalCache :=
  if storageFault then (false, c)
  else if c.inventory.any (fun r => r.serial_number == serial_number) then (false, c)
  else
    (true,
      { c with
        inventory := c.inventory ++
          [{ id := c.nextId, item_sku := item_sku, serial_number := serial_number,
             lpn := lpn, location := location, repair_state := repair_state,
             entered_by := entered_by, created_at := now, order_number := order_number,
             sync_status := SyncStatus.pending, remote_id := none, last_modified := now }]
        nextId := c.nextId + 1 })

/-- `update_inventory_item_cached`: one local
`UPDATE ... SET ..., sync_status='pending', last_modified=? WHERE id = ?`,
then `return True` — the function never inspects `cursor.rowcount`, so the
update of a missing id also returns `True`.  Setting `serial_number` to a
value held by a different row violates the UNIQUE constraint
(`IntegrityError`), caught by the broad `except` which returns `False`; the
uncommitted UPDATE is rolled back when the connection closes. -/
def update_inventory_item_cached (c : LocalCache) (item_id : Nat)
    (item_sku serial_number lpn repair_state location order_number now : String) :
    Bool × LocalCache :=
  if (c.inventory.any (fun r => r.id == item_id)) &&
     (c.inventory.any (fun r => r.id != item_id && r.serial_number == serial_number)) then
    (false, c)
  else
    (true,
      { c with
        inventory := c.inventory.map (fun r =>
          if r.id == item_id then
            { r with item_sku := item_sku, serial_number := serial_number, lpn := lpn,
                     location := location, repair_state := repair_state,
                     order_number := order_number, sync_status := SyncStatus.pending,
                     last_modified := now }
          else r) })

/-- Python truthiness of an `Optional[int]`: `None` and `0` are falsy. -/
def pyTruthyNat (o : Option Nat) : Bool := o.getD 0 != 0

/-- `delete_inventory_item_cached`: look up `remote_id` of the row
(`fetchone` of the SELECT, `None` when the id is absent or never synced),
DELETE the row, and when `remote_id` is truthy (`if remote_id:`),
INSERT OR REPLACE a tombstone key `delete_<project>_<remote_id>` into
`sync_metadata`; then commit.  `tombstoneFault` models the tombstone INSERT
raising: the broad `except` returns `False`, and since `conn.commit()` was
never reached the closing of the connection rolls back the whole
transaction, the DELETE included. -/
def delete_inventory_item_cached (tombstoneFault : Bool) (project : String)
    (c : LocalCache) (item_id : Nat) (now : String) : Bool × LocalCache :=
  let remoteId := (c.inventory.find? (fun r => r.id == item_id)).bind (fun r => r.remote_id)
  let afterDelete := c.inventory.filter (fun r => r.id != item_id)
  if pyTruthyNat remoteId then
    if tombstoneFault then (false, c)
    else
      (true,
        { c with
          inventory := afterDelete
          syncMetadata := metaSet c.syncMetadata
            ("delete_" ++ project ++ "_" ++ toString (remoteId.getD 0)) now })
  else (true, { c with inventory := afterDelete })

/-! ### Background sync (src/database/inventory_cache.py) -/

/-- The remote row inserted by the push phase (`INSERT OR REPLACE` of the
eight data columns; the remote table has no UNIQUE constraint, so a fresh
AUTOINCREMENT id `rid` is always assigned; `tracking_number` defaults to ''). -/
def remoteRowOfPending (r : Record) (rid : Nat) : RemoteRow :=
  { id := rid, item_sku := r.item_sku, serial_number := r.serial_number, lpn := r.lpn,
    location := r.location, repair_state := r.repair_state, entered_by := r.entered_by,
    created_at := r.created_at, order_number := r.order_number, tracking_number := "" }

/-- `UPDATE inventory SET sync_status='synced', remote_id=? WHERE id = ?`. -/
def markSynced (c : LocalCache) (localId rid : Nat) : LocalCache :=
  { c with
    inventory := c.inventory.map (fun r =>
      if r.id == localId then
        { r with sync_status := SyncStatus.synced, remote_id := some rid }
      else r) }

/-- The per-row loop of `_sync_to_remote`: rows whose remote insert raises
(`failIds`) are skipped by the inner `except ...: continue`; the others are
inserted remotely and stamped synced locally with the returned `lastrowid`. -/
def pushItems (failIds : List Nat) :
    List Record → LocalCache → RemoteActive → LocalCache × RemoteActive
  | [], c, rdb => (c, rdb)
  | item :: rest, c, rdb =>
    if failIds.contains item.id then pushItems failIds rest c rdb
    else
      pushItems failIds rest (markSynced c item.id rdb.nextId)
        { rows := rdb.rows ++ [remoteRowOfPending item rdb.nextId], nextId := rdb.nextId + 1 }

/-- `_sync_to_remote(project)`: select the `pending` rows; return at once when
there are none; connect to the remote database (`remoteUp = false` models the
whole-phase failure: the outer `except` swallows it and the uncommitted local
updates are rolled back, so nothing changes); otherwise run the per-row loop
and commit both sides. -/
def sync_to_remote (remoteUp : Bool) (failIds : List Nat) (c : LocalCache)
    (rdb : RemoteActive) : LocalCache × RemoteActive :=
  let pendingItems := c.inventory.filter (fun r => r.sync_status == SyncStatus.pending)
  if pendingItems.isEmpty then (c, rdb)
  else if !remoteUp then (c, rdb)
  else pushItems failIds pendingItems c rdb

/-- The local row inserted by the pull phase: remote data columns, status
`'synced'`, `remote_id` = the remote row id, `last_modified` = the remote
`created_at` (line 458 of src/database/inventory_cache.py). -/
def recordOfRemote (item : RemoteRow) (localId : Nat) : Record :=
  { id := localId, item_sku := item.item_sku, serial_number := item.serial_number,
    lpn := item.lpn, location := item.location, repair_state := item.repair_state,
    entered_by := item.entered_by, created_at := item.created_at,
    order_number := item.order_number, sync_status := SyncStatus.synced,
    remote_id := some item.id, last_modified := item.created_at }

/-- The insert loop of `_sync_from_remote`: a remote row is inserted locally
when its serial number is not among the pre-computed synced serials; the
local UNIQUE(serial_number) constraint turns a clash with any existing local
row (a `pending` one included) into an `IntegrityError` that the inner
`except` ignores. -/
def pullInsert (syncedSerials : List String) (items : List RemoteRow) (c : LocalCache) :
    LocalCache :=
  items.foldl
    (fun acc item =>
      if syncedSerials.contains item.serial_number then acc
      else if acc.inventory.any (fun r => r.serial_number == item.serial_number) then acc
      else
        { acc with
          inventory := acc.inventory ++ [recordOfRemote item acc.nextId]
          nextId := acc.nextId + 1 })
    c

/-- The stale-row deletion of `_sync_from_remote`: `DELETE FROM inventory
WHERE sync_status = 'synced' AND serial_number IN (<staleSerials>)`.
(When `stale_serials` is empty the Python code skips the statement, which has
the same effect.) -/
def pullDeleteStale (staleSerials : List String) (c : LocalCache) : LocalCache :=
  { c with
    inventory := c.inventory.filter (fun r =>
      !(r.sync_status == SyncStatus.synced && staleSerials.contains r.serial_number)) }

/-- `_sync_from_remote(project)`: fetch all remote rows (`ORDER BY created_at
DESC`), insert the ones not yet represented locally, delete the local
`'synced'` rows whose serial number no longer exists remotely, and stamp
`last_pull_<project>`.  (The function also reads `last_pull` at entry but
never uses the value.)  `remoteUp = false` models the whole-phase failure
swallowed by the outer `except`. -/
def sync_from_remote (remoteUp : Bool) (project : String) (c : LocalCache)
    (rdb : RemoteActive) (now : String) : LocalCache :=
  if !remoteUp then c
  else
    let remoteItems := sortBy (fun a b => !charListLt a.created_at.data b.created_at.data) rdb.rows
    let syncedSerials :=
      (c.inventory.filter (fun r => r.sync_status == SyncStatus.synced)).map
        (fun r => r.serial_number)
    let remoteSerials := remoteItems.map (fun it => it.serial_number)
    let staleSerials := syncedSerials.filter (fun s => !remoteSerials.contains s)
    let c2 := pullDeleteStale staleSerials (pullInsert syncedSerials remoteItems c)
    { c2 with syncMetadata := metaSet c2.syncMetadata ("last_pull_" ++ project) now }

/-- Claim C1 helper: the pending rows of a cache, in table order. -/
def pendingRows (c : LocalCache) : List Record :=
  c.inventory.filter (fun r => r.sync_status == SyncStatus.pending)

theorem pullInsert_pending (syncedSerials : List String) (items : List RemoteRow) :
    ∀ c : LocalCache, pendingRows (pullInsert syncedSerials items c) = pendingRows c := by
  induction items with
  | nil => intro c; rfl
  | cons item rest ih =>
    intro c
    by_cases h1 : syncedSerials.contains item.serial_number = true
    · show pendingRows (pullInsert syncedSerials rest _) = _
      simp only [h1, if_pos]
      exact ih c
    · by_cases h2 : c.inventory.any (fun r => r.serial_number == item.serial_number) = true
      · show pendingRows (pullInsert syncedSerials rest _) = _
        simp only [h1, h2, if_pos, if_neg, Bool.false_eq_true, not_false_iff]
        exact ih c
      · show pendingRows (pullInsert syncedSerials rest _) = _
        simp only [h1, h2, if_neg, Bool.false_eq_true, not_false_iff]
        rw [ih]
        simp [pendingRows, List.filter_append, recordOfRemote]

theorem pullDeleteStale_pending (staleSerials : List String) (c : LocalCache) :
    pendingRows (pullDeleteStale staleSerials c) = pendingRows c := by
  simp only [pendingRows, pullDeleteStale, List.filter_filter]
  apply List.filter_congr
  intro r _
  cases hs : r.sync_status <;> simp [hs]

/-- Claim C1: a single run of the pull-active phase (`_sync_from_remote`)
leaves the list of local `pending` rows exactly as it was — pending rows are
never deleted, never overwritten, and none is added — whatever the remote
table contains and whether or not the remote database is reachable. -/
theorem pull_active_preserves_pending_rows (remoteUp : Bool) (project : String)
    (c : LocalCache) (rdb : RemoteActive) (now : String) :
    pendingRows (sync_from_remote remoteUp project c rdb now) = pendingRows c := by
  by_cases hup : remoteUp = true
  · subst hup
    show pendingRows (pullDeleteStale _ (pullInsert _ _ c)) = pendingRows c
    rw [pullDeleteStale_pending, pullInsert_pending]
  · simp only [Bool.not_eq_true] at hup
    simp [sync_from_remote, hup]

/-! ### Concrete fixtures used by counterexamples and witnesses -/

/-- A freshly initialized local cache database. -/
def cacheEmpty : LocalCache := ⟨[], 1, [], []⟩

/-- A local row that has been pushed (synced, remote id 5). -/
def recSynced : Record :=
  ⟨1, "SKU-1", "SN1", "LPN1", "", "Repaired", "user", "2026-01-01T00:00:00", "",
    SyncStatus.synced, some 5, "2026-01-01T00:00:00"⟩

def cacheOneSynced : LocalCache := ⟨[recSynced], 2, [], []⟩

/-- A remote active table holding one row with serial `SN1`. -/
def remoteRow1 : RemoteRow :=
  ⟨1, "SKU-1", "SN1", "LPN1", "", "Repaired", "user", "2026-01-01T00:00:00", "", ""⟩

def remoteOne : RemoteActive := ⟨[remoteRow1], 2⟩

/-! ### Claim C4 -/

/-- Claim C4 (code bug): `update_inventory_item_cached` on an id that does not
exist in the local cache returns `True` and leaves the cache unchanged — the
function never checks `cursor.rowcount`, so the claimed (and spec-stated)
`False` for a missing id is not returned.  The sibling non-cached
`update_inventory_item` (src/database/inventory.py) does return
`affected > 0`, and the GUI imports the cached function as a drop-in
replacement for it, so the missing check is a slip in the code. -/
theorem update_missing_id_returns_true :
    (update_inventory_item_cached cacheEmpty 42 "SKU-1" "SN1" "LPN1" "Repaired" "" ""
        "2026-01-02T00:00:00").1 = true
    ∧ (update_inventory_item_cached cacheEmpty 42 "SKU-1" "SN1" "LPN1" "Repaired" "" ""
        "2026-01-02T00:00:00").2 = cacheEmpty := by
  constructor <;> rfl

/-! ### Claim C10 -/

/-- Claim C10: deleting an id that does not exist in the project's local
cache still returns `true` (the `DELETE` simply affects no row, no tombstone
is attempted, and the function commits and returns `True`) — in contrast to
`update`, which the spec says reports a missing id as `false`. -/
theorem delete_missing_id_succeeds (tombstoneFault : Bool) (project : String)
    (c : LocalCache) (item_id : Nat) (now : String)
    (h : ∀ r ∈ c.inventory, r.id ≠ item_id) :
    delete_inventory_item_cached tombstoneFault project c item_id now = (true, c) := by
  have hfind : c.inventory.find? (fun r => r.id == item_id) = none := by
    apply List.find?_eq_none.mpr
    intro r hr
    simp [h r hr]
  have hfilter : c.inventory.filter (fun r => r.id != item_id) = c.inventory := by
    apply List.filter_eq_self.mpr
    intro r hr
    simp [h r hr]
  simp [delete_inventory_item_cached, hfind, hfilter, pyTruthyNat]

theorem delete_missing_id_succeeds_witness :
    (∀ r ∈ cacheEmpty.inventory, r.id ≠ 7)
    ∧ delete_inventory_item_cached true "ecoflow" cacheEmpty 7 "2026-01-02T00:00:00"
        = (true, cacheEmpty) :=
  ⟨by decide, delete_missing_id_succeeds true "ecoflow" cacheEmpty 7 "2026-01-02T00:00:00"
    (by decide)⟩

/-! ### Claim C9 -/

/-- Claim C9 (counterexample): when the tombstone bookkeeping write fails on a
synced row, `delete_inventory_item_cached` returns `False` and the row is
STILL PRESENT: the broad `except` skips `conn.commit()`, so closing the
connection rolls back the whole transaction, the `DELETE` included.  This
refutes "always removes the local row regardless of tombstone recording
outcome". -/
theorem delete_tombstone_failure_rolls_back :
    (delete_inventory_item_cached true "ecoflow" cacheOneSynced 1 "2026-01-02T00:00:00").1
      = false
    ∧ recSynced ∈
        (delete_inventory_item_cached true "ecoflow" cacheOneSynced 1
          "2026-01-02T00:00:00").2.inventory := by
  constructor
  · rfl
  · decide

/-- `True` when the delete of `item_id` attempts a tombstone write: the row is
found and its `remote_id` is truthy. -/
def tombstoneWriteNeeded (c : LocalCache) (item_id : Nat) : Bool :=
  pyTruthyNat ((c.inventory.find? (fun r => r.id == item_id)).bind (fun r => r.remote_id))

/-- Claim C9 (amended): `delete_inventory_item_cached` removes the local row
and returns `true` whenever no tombstone write is attempted or the tombstone
write succeeds; but when the row is synced (truthy `remote_id`) and the
tombstone bookkeeping write fails, the whole transaction is rolled back: the
local row is NOT removed and the call returns `false`. -/
theorem delete_item_amended (tombstoneFault : Bool) (project : String) (c : LocalCache)
    (item_id : Nat) (now : String) :
    (tombstoneFault = true → tombstoneWriteNeeded c item_id = true →
      delete_inventory_item_cached tombstoneFault project c item_id now = (false, c))
    ∧ ((tombstoneFault = true → tombstoneWriteNeeded c item_id = false) →
        (delete_inventory_item_cached tombstoneFault project c item_id now).1 = true
        ∧ (delete_inventory_item_cached tombstoneFault project c item_id now).2.inventory
            = c.inventory.filter (fun r => r.id != item_id)) := by
  unfold tombstoneWriteNeeded
  simp only [delete_inventory_item_cached]
  by_cases ht :
      pyTruthyNat
        ((c.inventory.find? (fun r => r.id == item_id)).bind (fun r => r.remote_id)) = true
  · simp only [ht, if_true]
    by_cases hf : tombstoneFault = true
    · subst hf
      exact ⟨fun _ _ => rfl, fun hcon => absurd (hcon rfl) (by simp [ht])⟩
    · simp only [Bool.not_eq_true] at hf
      subst hf
      exact ⟨fun hcon => absurd hcon (by simp), fun _ => ⟨rfl, rfl⟩⟩
  · simp only [Bool.not_eq_true] at ht
    simp only [ht]
    exact ⟨fun _ hcon => absurd hcon (by simp [ht]), fun _ => ⟨rfl, rfl⟩⟩

theorem delete_item_amended_witness :
    tombstoneWriteNeeded cacheOneSynced 1 = true
    ∧ delete_inventory_item_cached true "halo" cacheOneSynced 1 "2026-01-03T00:00:00"
        = (false, cacheOneSynced) :=
  ⟨by decide,
    (delete_item_amended true "halo" cacheOneSynced 1 "2026-01-03T00:00:00").1 rfl (by decide)⟩

/-! ### Claim C2 -/

/-- Claim C2 (counterexample): a row created by the pull phase enters the
local table already `'synced'` with a non-null `remote_id` (lines 453-458 of
src/database/inventory_cache.py insert with `sync_status='synced'` and the
remote row id).  Starting from an empty cache and a remote table with one
row, the pulled row was never `pending`, refuting "every Record starts
`pending` with `remote_id = null` ... for every row ever inserted ... by
whichever operation (add or pull) created it". -/
theorem pulled_row_enters_already_synced :
    ((sync_from_remote true "ecoflow" cacheEmpty remoteOne
        "2026-01-02T00:00:00").inventory.map (fun r => (r.sync_status, r.remote_id)))
      = [(SyncStatus.synced, some 1)] := by
  decide

theorem mem_markSynced_of_ne (c : LocalCache) (i rid : Nat) (r : Record)
    (hr : r ∈ c.inventory) (hne : r.id ≠ i) : r ∈ (markSynced c i rid).inventory := by
  have : (fun s : Record =>
      if s.id == i then { s with sync_status := SyncStatus.synced, remote_id := some rid }
      else s) r = r := by
    simp [hne]
  exact this ▸ List.mem_map_of_mem _ hr

theorem mem_markSynced_self (c : LocalCache) (rid : Nat) (r : Record)
    (hr : r ∈ c.inventory) :
    { r with sync_status := SyncStatus.synced, remote_id := some rid }
      ∈ (markSynced c r.id rid).inventory := by
  have : (fun s : Record =>
      if s.id == r.id then { s with sync_status := SyncStatus.synced, remote_id := some rid }
      else s) r = { r with sync_status := SyncStatus.synced, remote_id := some rid } := by
    simp
  exact this ▸ List.mem_map_of_mem _ hr

/-- Rows whose id is hit by no pushed item survive the push loop unchanged. -/
theorem pushItems_preserves (failIds : List Nat) :
    ∀ (items : List Record) (c : LocalCache) (rdb : RemoteActive) (r : Record),
      r ∈ c.inventory → (∀ it ∈ items, it.id ≠ r.id) →
      r ∈ (pushItems failIds items c rdb).1.inventory := by
  intro items
  induction items with
  | nil => intro c rdb r hr _; exact hr
  | cons item rest ih =>
    intro c rdb r hr hne
    by_cases hf : failIds.contains item.id = true
    · simp only [pushItems, hf, if_pos]
      exact ih c rdb r hr (fun it hit => hne it (List.mem_cons_of_mem _ hit))
    · simp only [pushItems, hf, if_neg, Bool.not_eq_true]
      refine ih _ _ r ?_ (fun it hit => hne it (List.mem_cons_of_mem _ hit))
      exact mem_markSynced_of_ne c item.id rdb.nextId r hr
        (fun hid => hne item (List.mem_cons_self _ _) hid.symm)

/-- A pushed pending item appears synced, with some remote id, after the loop. -/
theorem pushItems_marks (failIds : List Nat) :
    ∀ (items : List Record) (c : LocalCache) (rdb : RemoteActive) (r : Record),
      items.Pairwise (fun a b => a.id ≠ b.id) → r ∈ items → r ∈ c.inventory →
      failIds.contains r.id = false →
      ∃ rid, { r with sync_status := SyncStatus.synced, remote_id := some rid }
        ∈ (pushItems failIds items c rdb).1.inventory := by
  intro items
  induction items with
  | nil => intro c rdb r _ hmem; exact absurd hmem (List.not_mem_nil r)
  | cons item rest ih =>
    intro c rdb r hpw hmem hr hfail
    rcases List.mem_cons.mp hmem with heq | hrest
    · subst heq
      simp only [pushItems, hfail, if_neg, Bool.not_eq_true]
      refine ⟨rdb.nextId, pushItems_preserves failIds rest _ _ _ ?_ ?_⟩
      · exact mem_markSynced_self c rdb.nextId r hr
      · intro it hit h
        exact (List.pairwise_cons.mp hpw).1 it hit h.symm
    · have hne : item.id ≠ r.id := (List.pairwise_cons.mp hpw).1 r hrest
      by_cases hf : failIds.contains item.id = true
      · simp only [pushItems, hf, if_pos]
        exact ih c rdb r (List.pairwise_cons.mp hpw).2 hrest hr hfail
      · simp only [pushItems, hf, if_neg, Bool.not_eq_true]
        refine ih _ _ r (List.pairwise_cons.mp hpw).2 hrest ?_ hfail
        exact mem_markSynced_of_ne c item.id rdb.nextId r hr (fun hid => hne hid.symm)

/-- Definitional unfolding of one step of the pull insert loop. -/
theorem pullInsert_cons (syncedSerials : List String) (item : RemoteRow)
    (rest : List RemoteRow) (c : LocalCache) :
    pullInsert syncedSerials (item :: rest) c
      = pullInsert syncedSerials rest
          (if syncedSerials.contains item.serial_number then c
           else if c.inventory.any (fun r => r.serial_number == item.serial_number) then c
           else
             { c with
               inventory := c.inventory ++ [recordOfRemote item c.nextId]
               nextId := c.nextId + 1 }) := rfl

/-- Every row present after the insert loop of the pull is either an original
row or a freshly inserted synced row carrying a remote id. -/
theorem pullInsert_mem (syncedSerials : List String) (items : List RemoteRow) :
    ∀ (c : LocalCache) (r : Record), r ∈ (pullInsert syncedSerials items c).inventory →
      r ∈ c.inventory ∨ (r.sync_status = SyncStatus.synced ∧ ∃ k, r.remote_id = some k) := by
  induction items with
  | nil => intro c r hr; exact Or.inl hr
  | cons item rest ih =>
    intro c r hr
    rw [pullInsert_cons] at hr
    by_cases h1 : syncedSerials.contains item.serial_number = true
    · rw [if_pos h1] at hr
      exact ih c r hr
    · rw [if_neg h1] at hr
      by_cases h2 : c.inventory.any (fun s => s.serial_number == item.serial_number) = true
      · rw [if_pos h2] at hr
        exact ih c r hr
      · rw [if_neg h2] at hr
        rcases ih _ r hr with hin | hnew
        · rcases List.mem_append.mp hin with hold | hins
          · exact Or.inl hold
          · rcases List.mem_singleton.mp hins with rfl
            exact Or.inr ⟨rfl, item.id, rfl⟩
        · exact Or.inr hnew

/-- Claim C2 (amended): rows created by `add_inventory_item_cached` start
`pending` with `remote_id = null`; the push phase flips a successfully pushed
pending row to `synced` with a non-null `remote_id` and leaves already-synced
rows untouched (so the pending-to-synced transition happens at most once
between updates); a successful `update` resets the touched row to `pending`;
but rows inserted by the pull phase are created already `synced` with a
non-null `remote_id`, never having been `pending`. -/
theorem record_lifecycle :
    (∀ (c : LocalCache) (sku serial lpn rs eb loc onum now : String),
      (add_inventory_item_cached false c sku serial lpn rs eb loc onum now).1 = true →
      ∃ r : Record,
        (add_inventory_item_cached false c sku serial lpn rs eb loc onum now).2.inventory
          = c.inventory ++ [r]
        ∧ r.sync_status = SyncStatus.pending ∧ r.remote_id = none)
    ∧ (∀ (failIds : List Nat) (c : LocalCache) (rdb : RemoteActive),
        (c.inventory.map (fun r => r.id)).Nodup →
        (∀ r ∈ c.inventory, r.sync_status = SyncStatus.synced →
          r ∈ (sync_to_remote true failIds c rdb).1.inventory)
        ∧ (∀ r ∈ c.inventory, r.sync_status = SyncStatus.pending →
            failIds.contains r.id = false →
            ∃ rid, { r with sync_status := SyncStatus.synced, remote_id := some rid }
              ∈ (sync_to_remote true failIds c rdb).1.inventory))
    ∧ (∀ (c : LocalCache) (item_id : Nat) (sku serial lpn rs loc onum now : String),
        (update_inventory_item_cached c item_id sku serial lpn rs loc onum now).1 = true →
        ∀ r ∈ (update_inventory_item_cached c item_id sku serial lpn rs loc onum
            now).2.inventory,
          r.id = item_id → r.sync_status = SyncStatus.pending)
    ∧ (∀ (remoteUp : Bool) (project : String) (c : LocalCache) (rdb : RemoteActive)
        (now : String),
        ∀ r ∈ (sync_from_remote remoteUp project c rdb now).inventory,
          r ∉ c.inventory →
          r.sync_status = SyncStatus.synced ∧ ∃ k, r.remote_id = some k) := by
  refine ⟨?_, ?_, ?_, ?_⟩
  · intro c sku serial lpn rs eb loc onum now hres
    by_cases hdup : c.inventory.any (fun r => r.serial_number == serial) = true
    · rw [show add_inventory_item_cached false c sku serial lpn rs eb loc onum now
          = (false, c) from by simp [add_inventory_item_cached, hdup]] at hres
      cases hres
    · refine ⟨{ id := c.nextId, item_sku := sku, serial_number := serial, lpn := lpn,
                location := loc, repair_state := rs, entered_by := eb, created_at := now,
                order_number := onum, sync_status := SyncStatus.pending, remote_id := none,
                last_modified := now }, ?_, rfl, rfl⟩
      simp [add_inventory_item_cached, hdup]
  · intro failIds c rdb hnodup
    have hpendNodup :
        (c.inventory.filter (fun r => r.sync_status == SyncStatus.pending)).Pairwise
          (fun a b => a.id ≠ b.id) := by
      have hsub : ((c.inventory.filter
            (fun r => r.sync_status == SyncStatus.pending)).map (fun r => r.id)).Sublist
          (c.inventory.map (fun r => r.id)) :=
        List.Sublist.map _ (List.filter_sublist c.inventory)
      have : ((c.inventory.filter
          (fun r => r.sync_status == SyncStatus.pending)).map (fun r => r.id)).Nodup :=
        List.Nodup.sublist hsub hnodup
      exact List.pairwise_map.mp this
    have hinj := List.inj_on_of_nodup_map hnodup
    constructor
    · intro r hr hsynced
      unfold sync_to_remote
      by_cases hemp :
          (c.inventory.filter (fun s => s.sync_status == SyncStatus.pending)).isEmpty = true
      · simp only [hemp, if_pos]
        exact hr
      · simp only [hemp, if_neg, Bool.not_eq_true, Bool.not_true, Bool.false_eq_true]
        refine pushItems_preserves failIds _ c rdb r hr ?_
        intro it hit hid
        have hitmem := List.mem_filter.mp hit
        have : it = r := hinj hitmem.1 hr hid
        subst this
        rw [hsynced] at hitmem
        exact absurd hitmem.2 (by decide)
    · intro r hr hpend hfail
      have hrp : r ∈ c.inventory.filter (fun s => s.sync_status == SyncStatus.pending) :=
        List.mem_filter.mpr ⟨hr, by simp [hpend]⟩
      have hemp :
          (c.inventory.filter (fun s => s.sync_status == SyncStatus.pending)).isEmpty
            = false := by
        cases hl : c.inventory.filter (fun s => s.sync_status == SyncStatus.pending) with
        | nil => rw [hl] at hrp; exact absurd hrp (List.not_mem_nil r)
        | cons a as => rfl
      unfold sync_to_remote
      simp only [hemp, Bool.false_eq_true, if_neg, Bool.not_true, not_false_iff]
      exact pushItems_marks failIds _ c rdb r hpendNodup hrp hr hfail
  · intro c item_id sku serial lpn rs loc onum now hok r hr hid
    by_cases hguard :
        ((c.inventory.any (fun s => s.id == item_id)) &&
          (c.inventory.any (fun s => s.id != item_id && s.serial_number == serial))) = true
    · rw [show update_inventory_item_cached c item_id sku serial lpn rs loc onum now
          = (false, c) from by simp only [update_inventory_item_cached, hguard, if_pos]] at hok
      cases hok
    · rw [show (update_inventory_item_cached c item_id sku serial lpn rs loc onum
            now).2.inventory
          = c.inventory.map (fun s =>
              if s.id == item_id then
                { s with item_sku := sku, serial_number := serial, lpn := lpn,
                         location := loc, repair_state := rs, order_number := onum,
                         sync_status := SyncStatus.pending, last_modified := now }
              else s) from by simp only [update_inventory_item_cached, hguard, if_neg,
            Bool.not_eq_true]] at hr
      rcases List.mem_map.mp hr with ⟨s, _, hmap⟩
      by_cases hsid : (s.id == item_id) = true
      · rw [if_pos hsid] at hmap
        rw [← hmap]
      · rw [if_neg (by simp [hsid])] at hmap
        subst hmap
        exact absurd hid (by simpa using hsid)
  · intro remoteUp project c rdb now r hr hnot
    by_cases hup : remoteUp = true
    · subst hup
      have : r ∈ (pullDeleteStale _ (pullInsert _ _ c)).inventory := hr
      have hr1 := (List.mem_filter.mp this).1
      rcases pullInsert_mem _ _ c r hr1 with hin | hnew
      · exact absurd hin hnot
      · exact hnew
    · simp only [Bool.not_eq_true] at hup
      subst hup
      exact absurd hr hnot

theorem record_lifecycle_witness :
    ∃ r : Record,
      (add_inventory_item_cached false cacheEmpty "SKU-1" "SN9" "LPN9" "Repaired" "user" ""
          "" "2026-01-02T00:00:00").2.inventory
        = cacheEmpty.inventory ++ [r]
      ∧ r.sync_status = SyncStatus.pending ∧ r.remote_id = none :=
  record_lifecycle.1 cacheEmpty "SKU-1" "SN9" "LPN9" "Repaired" "user" "" ""
    "2026-01-02T00:00:00" (by decide)

/-! ### The world seen by the facade: local cache plus the remote databases -/

/-- The state a facade call can reach: the per-project local cache, the
remote active and imported tables, and whether the remote mount is reachable. -/
structure InvWorld where
  localC : LocalCache
  remote : RemoteActive
  remoteImported : RemoteImported
  remoteUp : Bool
deriving DecidableEq

/-- `add_inventory_item_cached` lifted to the world: the function body opens
only the local cache database, so the remote state is passed through
untouched. -/
def addW (storageFault : Bool) (w : InvWorld)
    (item_sku serial_number lpn repair_state entered_by location order_number now : String) :
    Bool × InvWorld :=
  let res := add_inventory_item_cached storageFault w.localC item_sku serial_number lpn
      repair_state entered_by location order_number now
  (res.1, { w with localC := res.2 })

/-! ### Claim C3 -/

/-- Claim C3: `add_inventory_item_cached` performs only local-cache
operations: the remote state is untouched and irrelevant (the result and the
local post-state agree across any two worlds with the same local cache, the
Durable Store unreachable included); it returns `false` exactly when the
serial number duplicates an existing local row or a local storage fault
occurs; and on success the new row is immediately visible through
`get_all_inventory_cached` with `sync_status = pending`. -/
theorem add_item_spec (storageFault : Bool) (w : InvWorld)
    (sku serial lpn rs eb loc onum now : String) :
    ((addW storageFault w sku serial lpn rs eb loc onum now).1 = false ↔
      (storageFault = true ∨
        w.localC.inventory.any (fun r => r.serial_number == serial) = true))
    ∧ (addW storageFault w sku serial lpn rs eb loc onum now).2.remote = w.remote
    ∧ (addW storageFault w sku serial lpn rs eb loc onum now).2.remoteImported
        = w.remoteImported
    ∧ (addW storageFault w sku serial lpn rs eb loc onum now).2.remoteUp = w.remoteUp
    ∧ (∀ w2 : InvWorld, w2.localC = w.localC →
        (addW storageFault w2 sku serial lpn rs eb loc onum now).1
          = (addW storageFault w sku serial lpn rs eb loc onum now).1
        ∧ (addW storageFault w2 sku serial lpn rs eb loc onum now).2.localC
          = (addW storageFault w sku serial lpn rs eb loc onum now).2.localC)
    ∧ ((addW storageFault w sku serial lpn rs eb loc onum now).1 = true →
        viewOf
          { id := w.localC.nextId, item_sku := sku, serial_number := serial, lpn := lpn,
            location := loc, repair_state := rs, entered_by := eb, created_at := now,
            order_number := onum, sync_status := SyncStatus.pending, remote_id := none,
            last_modified := now }
          ∈ get_all_inventory_cached
              (addW storageFault w sku serial lpn rs eb loc onum now).2.localC none 0) := by
  refine ⟨?_, rfl, rfl, rfl, ?_, ?_⟩
  · unfold addW add_inventory_item_cached
    by_cases hsf : storageFault = true
    · simp [hsf]
    · simp only [Bool.not_eq_true] at hsf
      subst hsf
      by_cases hdup : w.localC.inventory.any (fun r => r.serial_number == serial) = true
      · simp [hdup]
      · simp [hdup]
  · intro w2 h2
    unfold addW
    rw [h2]
    exact ⟨rfl, rfl⟩
  · intro hok
    have hsf : storageFault = false := by
      by_contra hsf
      simp only [Bool.not_eq_false] at hsf
      subst hsf
      simp [addW, add_inventory_item_cached] at hok
    subst hsf
    by_cases hdup : w.localC.inventory.any (fun r => r.serial_number == serial) = true
    · rw [show addW false w sku serial lpn rs eb loc onum now
          = (false, w) from by simp [addW, add_inventory_item_cached, hdup]] at hok
      cases hok
    · have hinv : (addW false w sku serial lpn rs eb loc onum now).2.localC.inventory
          = w.localC.inventory ++
            [{ id := w.localC.nextId, item_sku := sku, serial_number := serial, lpn := lpn,
               location := loc, repair_state := rs, entered_by := eb, created_at := now,
               order_number := onum, sync_status := SyncStatus.pending, remote_id := none,
               last_modified := now }] := by
        simp [addW, add_inventory_item_cached, hdup]
      show viewOf _ ∈
        (sortBy _ (addW false w sku serial lpn rs eb loc onum now).2.localC.inventory).map
          viewOf
      apply List.mem_map_of_mem
      rw [mem_sortBy, hinv]
      exact List.mem_append.mpr (Or.inr (List.mem_singleton.mpr rfl))

/-- A facade world whose Durable Store is unreachable. -/
def invWorldDown : InvWorld := ⟨cacheEmpty, ⟨[], 1⟩, ⟨[], 1⟩, false⟩

theorem add_item_spec_witness :
    (addW false invWorldDown "SKU-1" "SN1" "LPN1" "Repaired" "user" "" ""
        "2026-01-02T00:00:00").1 = true
    ∧ viewOf
        { id := invWorldDown.localC.nextId, item_sku := "SKU-1", serial_number := "SN1",
          lpn := "LPN1", location := "", repair_state := "Repaired", entered_by := "user",
          created_at := "2026-01-02T00:00:00", order_number := "",
          sync_status := SyncStatus.pending, remote_id := none,
          last_modified := "2026-01-02T00:00:00" }
        ∈ get_all_inventory_cached
            (addW false invWorldDown "SKU-1" "SN1" "LPN1" "Repaired" "user" "" ""
              "2026-01-02T00:00:00").2.localC none 0 :=
  ⟨by decide,
    (add_item_spec false invWorldDown "SKU-1" "SN1" "LPN1" "Repaired" "user" "" ""
      "2026-01-02T00:00:00").2.2.2.2.2 (by decide)⟩

/-! ### Remote-side move and archive mirror (src/database/inventory.py,
src/database/inventory_cache.py) -/

def importedRowOf (it : RemoteRow) (newId : Nat) (importedAt : String) : RemoteImportedRow :=
  { id := newId, item_sku := it.item_sku, serial_number := it.serial_number, lpn := it.lpn,
    location := it.location, repair_state := it.repair_state, entered_by := it.entered_by,
    created_at := it.created_at, imported_at := importedAt, order_number := it.order_number,
    tracking_number := it.tracking_number }

/-- `move_inventory_to_imported(project)` (src/database/inventory.py lines
310-348): read all remote active rows (`ORDER BY created_at DESC`); when
empty return `[]`; otherwise copy them into the remote `imported_inventory`
table with `imported_at = now`, clear the remote active table, and return the
copied rows. -/
def move_inventory_to_imported (active : RemoteActive) (imp : RemoteImported)
    (now : String) : List RemoteRow × RemoteActive × RemoteImported :=
  let items := sortBy (fun a b => !charListLt a.created_at.data b.created_at.data) active.rows
  if items.isEmpty then ([], active, imp)
  else
    let imp2 := items.foldl
      (fun acc it =>
        { rows := acc.rows ++ [importedRowOf it acc.nextId now]
          nextId := acc.nextId + 1 })
      imp
    (items, { active with rows := [] }, imp2)

def importedRecordOfRemote (it : RemoteImportedRow) : ImportedRecord :=
  { id := it.id, item_sku := it.item_sku, serial_number := it.serial_number, lpn := it.lpn,
    location := it.location, repair_state := it.repair_state, entered_by := it.entered_by,
    created_at := it.created_at, imported_at := it.imported_at,
    order_number := it.order_number }

/-- `_sync_imported_from_remote(project)`: store the remote archive row count
in `sync_metadata` under `imported_count_<project>`, then replace the local
archive mirror with the 100 most recent remote archive rows.  `remoteUp =
false` models the whole-phase failure swallowed by the outer `except`. -/
def sync_imported_from_remote (remoteUp : Bool) (project : String) (c : LocalCache)
    (imp : RemoteImported) : LocalCache :=
  if !remoteUp then c
  else
    let top :=
      (sortBy (fun a b => !charListLt a.imported_at.data b.imported_at.data) imp.rows).take 100
    { c with
      importedInventory := top.map importedRecordOfRemote
      syncMetadata := metaSet c.syncMetadata ("imported_count_" ++ project)
        (toString imp.rows.length) }

/-- `move_to_imported_cached(project)` (src/database/inventory_cache.py lines
597-630): snapshot the local rows; return `[]` when there are none; flush
pending rows with `_sync_to_remote`; run the remote-side move (when the
remote mount is down this raises and the broad `except` returns `[]` with
the local cache left as the flush left it); ALWAYS clear the local active
inventory; refresh the local archive mirror; and return the pre-clear
snapshot. -/
def move_to_imported_cached (failIds : List Nat) (project : String) (w : InvWorld)
    (nowMove : String) : List RecordView × InvWorld :=
  let localItems := get_all_inventory_cached w.localC none 0
  if localItems.isEmpty then ([], w)
  else
    let pushRes := sync_to_remote w.remoteUp failIds w.localC w.remote
    if !w.remoteUp then ([], { w with localC := pushRes.1, remote := pushRes.2 })
    else
      let moveRes := move_inventory_to_imported pushRes.2 w.remoteImported nowMove
      let cleared : LocalCache := { pushRes.1 with inventory := [] }
      let c3 := sync_imported_from_remote w.remoteUp project cleared moveRes.2.2
      (localItems,
        { localC := c3, remote := moveRes.2.1, remoteImported := moveRes.2.2,
          remoteUp := w.remoteUp })

theorem sync_imported_inventory (remoteUp : Bool) (project : String) (c : LocalCache)
    (imp : RemoteImported) :
    (sync_imported_from_remote remoteUp project c imp).inventory = c.inventory := by
  unfold sync_imported_from_remote
  by_cases h : remoteUp = true
  · simp [h]
  · simp only [Bool.not_eq_true] at h
    simp [h]

theorem get_all_length (c : LocalCache) :
    (get_all_inventory_cached c none 0).length = c.inventory.length := by
  show ((sortBy _ c.inventory).map viewOf).length = _
  rw [List.length_map, length_sortBy]

/-! ### Claim C8 -/

/-- Claim C8: with the Durable Store reachable (and any set of per-row push
failures), `archive_and_export` (`move_to_imported_cached`) returns the
pre-call snapshot of the local rows; afterwards `get_all_inventory_cached`
for the project is empty and `get_inventory_count_cached` is 0; and the
returned sequence's length equals the pre-call count. -/
theorem archive_and_export_spec (failIds : List Nat) (project : String) (w : InvWorld)
    (nowMove : String) (hup : w.remoteUp = true) :
    (move_to_imported_cached failIds project w nowMove).1
        = get_all_inventory_cached w.localC none 0
    ∧ get_all_inventory_cached
        (move_to_imported_cached failIds project w nowMove).2.localC none 0 = []
    ∧ get_inventory_count_cached (move_to_imported_cached failIds project w nowMove).2.localC
        = 0
    ∧ (move_to_imported_cached failIds project w nowMove).1.length
        = get_inventory_count_cached w.localC := by
  by_cases hemp : (get_all_inventory_cached w.localC none 0).isEmpty = true
  · have hpre : get_all_inventory_cached w.localC none 0 = [] :=
      List.isEmpty_iff.mp hemp
    have hres : move_to_imported_cached failIds project w nowMove = ([], w) := by
      unfold move_to_imported_cached
      simp [hemp]
    have hinv : w.localC.inventory.length = 0 := by
      rw [← get_all_length w.localC, hpre]
      rfl
    rw [hres]
    exact ⟨hpre.symm, hpre, hinv, hinv.symm⟩
  · have hres :
        move_to_imported_cached failIds project w nowMove
          = (get_all_inventory_cached w.localC none 0,
             { localC :=
                 sync_imported_from_remote w.remoteUp project
                   { (sync_to_remote w.remoteUp failIds w.localC w.remote).1 with
                     inventory := [] }
                   (move_inventory_to_imported
                     (sync_to_remote w.remoteUp failIds w.localC w.remote).2
                     w.remoteImported nowMove).2.2
               remote :=
                 (move_inventory_to_imported
                   (sync_to_remote w.remoteUp failIds w.localC w.remote).2
                   w.remoteImported nowMove).2.1
               remoteImported :=
                 (move_inventory_to_imported
                   (sync_to_remote w.remoteUp failIds w.localC w.remote).2
                   w.remoteImported nowMove).2.2
               remoteUp := w.remoteUp }) := by
      unfold move_to_imported_cached
      simp [hemp, hup]
    have hinv :
        (move_to_imported_cached failIds project w nowMove).2.localC.inventory = [] := by
      rw [hres]
      show (sync_imported_from_remote _ _ _ _).inventory = []
      rw [sync_imported_inventory]
    refine ⟨by rw [hres], ?_, ?_, ?_⟩
    · show (sortBy _ (move_to_imported_cached failIds project w nowMove).2.localC.inventory).map
          viewOf = []
      rw [hinv]
      rfl
    · show (move_to_imported_cached failIds project w nowMove).2.localC.inventory.length = 0
      rw [hinv]
      rfl
    · rw [hres]
      exact get_all_length w.localC

/-- A local cache holding one pending row, with the remote reachable. -/
def recPending : Record :=
  ⟨1, "SKU-2", "SN2", "LPN2", "", "Repaired", "user", "2026-01-05T00:00:00", "",
    SyncStatus.pending, none, "2026-01-05T00:00:00"⟩

def invWorldUp : InvWorld := ⟨⟨[recPending], 2, [], []⟩, ⟨[], 1⟩, ⟨[], 1⟩, true⟩

theorem archive_and_export_spec_witness :
    invWorldUp.remoteUp = true
    ∧ ((move_to_imported_cached [] "ecoflow" invWorldUp "2026-01-06T00:00:00").1
          = get_all_inventory_cached invWorldUp.localC none 0
      ∧ get_all_inventory_cached
          (move_to_imported_cached [] "ecoflow" invWorldUp "2026-01-06T00:00:00").2.localC
          none 0 = []
      ∧ get_inventory_count_cached
          (move_to_imported_cached [] "ecoflow" invWorldUp "2026-01-06T00:00:00").2.localC
          = 0
      ∧ (move_to_imported_cached [] "ecoflow" invWorldUp "2026-01-06T00:00:00").1.length
          = get_inventory_count_cached invWorldUp.localC) :=
  ⟨rfl, archive_and_export_spec [] "ecoflow" invWorldUp "2026-01-06T00:00:00" rfl⟩

/-! ### Data model: reference (approved SKU) cache (src/database/sku_cache.py,
src/database/db.py) -/

/-- An approved-SKU entry as held in the in-memory cache dict. -/
structure SkuEntry where
  id : Option Nat
  sku : String
  description : String
  created_at : String
deriving DecidableEq

/-- The per-project in-memory state of the SKU cache: the `skus` dict (an
association list in insertion order, as a Python dict), the sorted
`sku_list`, the metadata `version` counter, and the local persistent mirror
(`sku_cache` table rows for the project, rewritten wholesale by
`save_project_to_local`). -/
structure SkuProjCache where
  skus : List (String × SkuEntry)
  skuList : List String
  version : Nat
  mirror : List (String × SkuEntry)
deriving DecidableEq

/-- Python dict assignment `d[k] = v`: replace in place when the key exists,
append otherwise. -/
def dictInsert (m : List (String × SkuEntry)) (k : String) (v : SkuEntry) :
    List (String × SkuEntry) :=
  if m.any (fun kv => kv.1 == k) then m.map (fun kv => if kv.1 == k then (k, v) else kv)
  else m ++ [(k, v)]

/-- Python dict lookup `d[k]` (as an option; the claims' hypotheses make the
lookup total where the code performs it). -/
def dictFind (m : List (String × SkuEntry)) (k : String) : Option SkuEntry :=
  (m.find? (fun kv => kv.1 == k)).map (fun kv => kv.2)

/-- `sorted(d.keys())`. -/
def sortedKeys (m : List (String × SkuEntry)) : List String :=
  sortBy (fun a b => !charListLt b.data a.data) (m.map (fun kv => kv.1))

/-- A row of the remote `approved_skus` table (src/database/db.py;
`sku` is UNIQUE, `id` AUTOINCREMENT). -/
structure ApprovedSkuRow where
  id : Nat
  sku : String
  description : String
  created_at : String
deriving DecidableEq

structure RemoteSkus where
  rows : List ApprovedSkuRow
  nextId : Nat
deriving DecidableEq

/-- `db.add_sku(sku, description)` (src/database/db.py lines 192-210): insert
`(sku.strip().upper(), description.strip(), now)` into `approved_skus`;
a duplicate raises `sqlite3.IntegrityError`, converted to `False`. -/
def db_add_sku (store : RemoteSkus) (sku description now : String) : Bool × RemoteSkus :=
  let skuU := pyUpper (pyStrip sku)
  if store.rows.any (fun r => r.sku == skuU) then (false, store)
  else
    (true,
      { rows := store.rows ++ [⟨store.nextId, skuU, pyStrip description, now⟩]
        nextId := store.nextId + 1 })

/-- A Python exception reaching the caller of the facade. -/
inductive PyExn where
  | typeError
  | operationalError
deriving DecidableEq

/-- The outcome of a Python call that should return a bool: either a value or
a raised exception. -/
inductive PyBool where
  | ret (b : Bool)
  | exn (e : PyExn)
deriving DecidableEq

/-- The body of `add_sku_cached` (src/database/sku_cache.py lines 481-521)
with the outcome of its `db.add_sku` call passed in as `dbResult`: on `True`
the in-memory dict gains the normalized entry, `sku_list` is rebuilt as
`sorted(skus.keys())`, the version counter increments, and the whole project
cache is saved to the local mirror; on `False` or a raised exception no cache
structure is touched. -/
def add_sku_cached_given (dbResult : PyBool) (sku description now : String)
    (st : SkuProjCache) : PyBool × SkuProjCache :=
  match dbResult with
  | .exn e => (.exn e, st)
  | .ret false => (.ret false, st)
  | .ret true =>
    let skuU := pyUpper (pyStrip sku)
    let entry : SkuEntry :=
      { id := none, sku := skuU, description := pyStrip description, created_at := now }
    let skus2 := dictInsert st.skus skuU entry
    (.ret true,
      { skus := skus2, skuList := sortedKeys skus2, version := st.version + 1,
        mirror := skus2 })

/-- Number of positional parameters accepted by `db.add_sku` as defined in
src/database/db.py: `(sku, description)`. -/
def dbAddSkuPositionalParams : Nat := 2

/-- Number of positional arguments `add_sku_cached` passes in
`db.add_sku(sku, description, project)` (src/database/sku_cache.py lines
488 and 491). -/
def addSkuCachedCallArgs : Nat := 3

/-- The reference cache world: the remote `approved_skus` store plus the
loaded project cache. -/
structure SkuWorld where
  store : RemoteSkus
  proj : SkuProjCache
deriving DecidableEq

/-- `add_sku_cached(sku, description, project)` with the cache enabled
(src/database/sku_cache.py lines 481-521).  Python call semantics: a call
passing more positional arguments than the callee accepts raises `TypeError`
before the callee's body runs; `db.add_sku` as defined in src/database/db.py
accepts two positional parameters but is called with three, so every call
raises and no state on either side is touched.  (The well-formed-call branch
is kept so the intended data flow — remote write first, cache update only on
remote success — is part of the model.) -/
def add_sku_cached (sku description project now : String) (w : SkuWorld) :
    PyBool × SkuWorld :=
  if addSkuCachedCallArgs ≤ dbAddSkuPositionalParams then
    let dbRes := db_add_sku w.store sku description now
    let res := add_sku_cached_given (.ret dbRes.1) sku description now w.proj
    (res.1, { store := dbRes.2, proj := res.2 })
  else (.exn PyExn.typeError, w)

/-! ### Claim C5 -/

/-- Claim C5 (code bug): with the cache enabled, every call of
`add_sku_cached` raises `TypeError` instead of returning a boolean:
`db.add_sku(sku, description, project)` passes three positional arguments to
the two-parameter `db.add_sku(sku, description)` of src/database/db.py, and
`add_sku_cached` has no `try`/`except` to convert the fault into `False`.
The world is returned untouched: the exception is raised before any store or
cache mutation. -/
theorem add_sku_cached_always_raises (sku description project now : String)
    (w : SkuWorld) :
    add_sku_cached sku description project now w = (PyBool.exn PyExn.typeError, w) := rfl

/-! ### Claim C6 -/

/-- Claim C6: the write-through ordering of `add_sku_cached` is atomic on the
cache side: whenever the `db.add_sku` call does not return `True` — a
duplicate reported as `False`, or any raised fault — the in-memory SKU map,
the sorted SKU list, the version counter and the local persistent mirror are
all left exactly as they were (no phantom entry); the remote write is the
first effect of the body, preceding every cache mutation. -/
theorem add_sku_write_through_atomic (dbResult : PyBool) (sku description now : String)
    (st : SkuProjCache) (h : dbResult ≠ PyBool.ret true) :
    add_sku_cached_given dbResult sku description now st = (dbResult, st) := by
  match dbResult with
  | .exn e => rfl
  | .ret false => rfl
  | .ret true => exact absurd rfl h

/-- A loaded project cache with one entry, to exercise the atomicity theorem
on the duplicate (`False`) outcome. -/
def skuProjOne : SkuProjCache :=
  ⟨[("XYZ", ⟨some 1, "XYZ", "widget", "2026-01-01T00:00:00"⟩)], ["XYZ"], 1,
    [("XYZ", ⟨some 1, "XYZ", "widget", "2026-01-01T00:00:00"⟩)]⟩

theorem add_sku_write_through_atomic_witness :
    PyBool.ret false ≠ PyBool.ret true
    ∧ add_sku_cached_given (PyBool.ret false) "XYZ" "widget" "2026-01-07T00:00:00"
        skuProjOne = (PyBool.ret false, skuProjOne) :=
  ⟨by decide,
    add_sku_write_through_atomic (PyBool.ret false) "XYZ" "widget" "2026-01-07T00:00:00"
      skuProjOne (by decide)⟩

/-! ### Prefix search (src/database/sku_cache.py lines 395-428) -/

/-- The forward scan of `search_skus_cached`: Python iterates
`range(start_idx, min(start_idx + limit * 2, len(sku_list)))`, appending each
key while it starts with the upper-cased query, breaking at the first
mismatch or once `limit` matches are collected.  Here the scan runs over the
dropped suffix with the loop's remaining iteration budget as fuel. -/
def scanMatches (pU : String) : List String → Nat → Nat → List String
  | _, _, 0 => []
  | [], _, _ => []
  | s :: rest, limit, w + 1 =>
    if pyStartsWith s pU then
      if limit ≤ 1 then [s] else s :: scanMatches pU rest (limit - 1) w
    else []

/-- `search_skus_cached(prefix_text, limit, project)` over a loaded project
cache: upper-case the query, `bisect.bisect_left` over the maintained sorted
key list (on a sorted list this is the number of keys below the query), scan
forward collecting `skus[key]` while the key matches, stopping at `limit` or
the first mismatch.  The dict indexing is modeled as an association-list
lookup, total under the loaded-state invariant the claim assumes. -/
def search_skus_cached (st : SkuProjCache) (p : String) (limit : Nat) : List SkuEntry :=
  let pU := pyUpper p
  let startIdx := st.skuList.countP (fun s => charListLt s.data pU.data)
  (scanMatches pU (st.skuList.drop startIdx) limit (2 * limit)).filterMap
    (fun k => dictFind st.skus k)

/-! Order lemmas for the lexicographic scan. -/

theorem charListLt_self : ∀ l : List Char, charListLt l l = false := by
  intro l
  induction l with
  | nil => rfl
  | cons a as ih =>
    show (if a < a then true else if a < a then false else charListLt as as) = false
    simp [lt_irrefl, ih]

theorem charEq_of_not_lt {a b : Char} (h1 : ¬a < b) (h2 : ¬b < a) : a = b :=
  le_antisymm (not_lt.mp h2) (not_lt.mp h1)

theorem charListLt_trans : ∀ (a b c : List Char),
    charListLt a b = true → charListLt b c = true → charListLt a c = true := by
  intro a
  induction a with
  | nil =>
    intro b c h1 h2
    cases b with
    | nil => cases h1
    | cons y ys =>
      cases c with
      | nil => cases h2
      | cons z zs => rfl
  | cons x xs ih =>
    intro b c h1 h2
    cases b with
    | nil => cases h1
    | cons y ys =>
      cases c with
      | nil => cases h2
      | cons z zs =>
        show (if x < z then true else if z < x then false else charListLt xs zs) = true
        by_cases hxy : x < y
        · by_cases hyz : y < z
          · simp [lt_trans hxy hyz]
          · have h2' : charListLt (y :: ys) (z :: zs) = true := h2
            rw [show charListLt (y :: ys) (z :: zs)
                = (if y < z then true else if z < y then false else charListLt ys zs)
                from rfl] at h2'
            rw [if_neg hyz] at h2'
            by_cases hzy : z < y
            · rw [if_pos hzy] at h2'; cases h2'
            · have : y = z := charEq_of_not_lt hyz hzy
              subst this
              simp [hxy]
        · have h1' : charListLt (x :: xs) (y :: ys) = true := h1
          rw [show charListLt (x :: xs) (y :: ys)
              = (if x < y then true else if y < x then false else charListLt xs ys)
              from rfl] at h1'
          rw [if_neg hxy] at h1'
          by_cases hyx : y < x
          · rw [if_pos hyx] at h1'; cases h1'
          · have hxeq : x = y := charEq_of_not_lt hxy hyx
            subst hxeq
            have h2' : charListLt (x :: ys) (z :: zs) = true := h2
            rw [show charListLt (x :: ys) (z :: zs)
                = (if x < z then true else if z < x then false else charListLt ys zs)
                from rfl] at h2'
            by_cases hxz : x < z
            · simp [hxz]
            · rw [if_neg hxz] at h2'
              by_cases hzx : z < x
              · rw [if_pos hzx] at h2'; cases h2'
              · rw [if_neg hzx] at h2'
                rw [if_neg hxz, if_neg hzx]
                rw [if_neg (lt_irrefl x)] at h1'
                exact ih ys zs h1' h2'

/-- A string that starts with `p` is not lexicographically below `p`. -/
theorem not_lt_of_isPrefixOf : ∀ (p s : List Char),
    p.isPrefixOf s = true → charListLt s p = false := by
  intro p
  induction p with
  | nil => intro s _; cases s <;> rfl
  | cons a as ih =>
    intro s hp
    cases s with
    | nil => simp [List.isPrefixOf] at hp
    | cons b bs =>
      simp only [List.isPrefixOf, Bool.and_eq_true, beq_iff_eq] at hp
      obtain ⟨rfl, hp2⟩ := hp
      show (if a < a then true else if a < a then false else charListLt bs as) = false
      simp [lt_irrefl, ih bs hp2]

/-- On or above `p`, once a string fails to start with `p`, every string
starting with `p` lies strictly below it (the prefix block is contiguous). -/
theorem lt_of_isPrefixOf_of_miss : ∀ (p x y : List Char),
    charListLt x p = false → p.isPrefixOf x = false → p.isPrefixOf y = true →
    charListLt y x = true := by
  intro p
  induction p with
  | nil => intro x y _ hpx _; simp [List.isPrefixOf] at hpx
  | cons a as ih =>
    intro x y hx hpx hpy
    cases x with
    | nil => cases hx
    | cons b bs =>
      cases y with
      | nil => simp [List.isPrefixOf] at hpy
      | cons c cs =>
        simp only [List.isPrefixOf, Bool.and_eq_true, beq_iff_eq] at hpy
        obtain ⟨rfl, hpy2⟩ := hpy
        have hx' : (if b < a then true else if a < b then false else charListLt bs as)
            = false := hx
        show (if a < b then true else if b < a then false else charListLt cs bs) = true
        by_cases hba : b < a
        · rw [if_pos hba] at hx'; cases hx'
        · rw [if_neg hba] at hx'
          by_cases hab : a < b
          · simp [hab]
          · have hbeq : a = b := charEq_of_not_lt hab hba
            subst hbeq
            rw [if_neg (lt_irrefl a)] at hx'
            simp only [List.isPrefixOf, beq_self_eq_true, Bool.true_and] at hpx
            rw [if_neg (lt_irrefl a), if_neg (lt_irrefl a)]
            exact ih bs cs hx' hpx hpy2

/-- The scan over a sorted suffix whose elements all sit at or above the
query collects exactly the matching block, truncated to `limit`. -/
theorem scanMatches_suffix (pU : String) : ∀ (l : List String) (limit w : Nat),
    1 ≤ limit → limit ≤ w →
    l.Pairwise (fun a b => charListLt a.data b.data = true) →
    (∀ x ∈ l, charListLt x.data pU.data = false) →
    scanMatches pU l limit w = (l.filter (fun s => pyStartsWith s pU)).take limit := by
  intro l
  induction l with
  | nil =>
    intro limit w h1 hw _ _
    cases w with
    | zero => omega
    | succ w2 =>
      rw [List.filter_nil, List.take_nil]
      rfl
  | cons s rest ih =>
    intro limit w h1 hw hsort hge
    cases w with
    | zero => omega
    | succ w2 =>
      have hscan : scanMatches pU (s :: rest) limit (w2 + 1)
          = if pyStartsWith s pU then
              (if limit ≤ 1 then [s] else s :: scanMatches pU rest (limit - 1) w2)
            else [] := rfl
      by_cases hm : pyStartsWith s pU = true
      · have hfc : List.filter (fun s2 => pyStartsWith s2 pU) (s :: rest)
            = s :: List.filter (fun s2 => pyStartsWith s2 pU) rest := by
          simp [List.filter_cons, hm]
        rw [hscan, if_pos hm, hfc]
        by_cases hl1 : limit ≤ 1
        · have hlim : limit = 1 := by omega
          subst hlim
          rw [if_pos (by omega)]
          rfl
        · obtain ⟨n, rfl⟩ : ∃ n, limit = n + 1 := ⟨limit - 1, by omega⟩
          rw [if_neg (by omega), List.take_succ_cons]
          have hrest := ih n w2 (by omega) (by omega) (List.pairwise_cons.mp hsort).2
            (fun x hx => hge x (List.mem_cons_of_mem _ hx))
          rw [show n + 1 - 1 = n from rfl, hrest]
      · have hm2 : pyStartsWith s pU = false := by
          simpa using hm
        have hfc : List.filter (fun s2 => pyStartsWith s2 pU) (s :: rest)
            = List.filter (fun s2 => pyStartsWith s2 pU) rest := by
          simp [List.filter_cons, hm2]
        have hnone : rest.filter (fun s2 => pyStartsWith s2 pU) = [] := by
          apply List.filter_eq_nil_iff.mpr
          intro y hy hmy
          have hPs : charListLt s.data pU.data = false := hge s (List.mem_cons_self s rest)
          have hys : charListLt y.data s.data = true :=
            lt_of_isPrefixOf_of_miss pU.data s.data y.data hPs hm2 hmy
          have hsy : charListLt s.data y.data = true := (List.pairwise_cons.mp hsort).1 y hy
          have hself : charListLt s.data s.data = true := charListLt_trans _ _ _ hsy hys
          rw [charListLt_self] at hself
          cases hself
        rw [hscan, if_neg (by simp [hm2]), hfc, hnone, List.take_nil]

/-- On a sorted key list, the scan started at `bisect_left` (the number of
keys below the query) collects exactly the keys starting with the query, in
list order, truncated to `limit`. -/
theorem scanMatches_bisect (pU : String) : ∀ (l : List String) (limit : Nat),
    l.Pairwise (fun a b => charListLt a.data b.data = true) →
    scanMatches pU (l.drop (l.countP (fun s => charListLt s.data pU.data))) limit (2 * limit)
      = (l.filter (fun s => pyStartsWith s pU)).take limit := by
  intro l
  induction l with
  | nil =>
    intro limit _
    have hnil : ∀ (lim w : Nat), scanMatches pU [] lim w = [] := by
      intro lim w
      cases w <;> rfl
    rw [List.drop_nil, hnil, List.filter_nil, List.take_nil]
  | cons s rest ih =>
    intro limit hsort
    by_cases hPs : charListLt s.data pU.data = true
    · have hcount : List.countP (fun s2 => charListLt s2.data pU.data) (s :: rest)
          = List.countP (fun s2 => charListLt s2.data pU.data) rest + 1 :=
        List.countP_cons_of_pos _ _ hPs
      have hms : pyStartsWith s pU = false := by
        by_contra hcon
        simp only [Bool.not_eq_false] at hcon
        have hlt := not_lt_of_isPrefixOf pU.data s.data hcon
        rw [hlt] at hPs
        cases hPs
      have hfc : (s :: rest).filter (fun s2 => pyStartsWith s2 pU)
          = rest.filter (fun s2 => pyStartsWith s2 pU) := by
        simp [List.filter_cons, hms]
      rw [hcount, List.drop_succ_cons, hfc]
      exact ih limit (List.pairwise_cons.mp hsort).2
    · have hall : ∀ x ∈ s :: rest, charListLt x.data pU.data = false := by
        intro x hx
        rcases List.mem_cons.mp hx with rfl | hxr
        · simpa using hPs
        · by_contra hcon
          simp only [Bool.not_eq_false] at hcon
          have hsx : charListLt s.data x.data = true := (List.pairwise_cons.mp hsort).1 x hxr
          exact hPs (charListLt_trans _ _ _ hsx hcon)
      have hcount : List.countP (fun s2 => charListLt s2.data pU.data) (s :: rest) = 0 :=
        List.countP_eq_zero.mpr (fun x hx => by simp [hall x hx])
      rw [hcount, List.drop_zero]
      cases limit with
      | zero =>
        rw [List.take_zero]
        rfl
      | succ n =>
        exact scanMatches_suffix pU (s :: rest) (n + 1) (2 * (n + 1)) (by omega) (by omega)
          hsort hall

theorem length_filterMap_of_isSome (f : String → Option SkuEntry) :
    ∀ (ks : List String), (∀ k ∈ ks, (f k).isSome = true) →
      (ks.filterMap f).length = ks.length := by
  intro ks
  induction ks with
  | nil => intro _; rfl
  | cons k kt ihk =>
    intro h
    obtain ⟨v, hv⟩ := Option.isSome_iff_exists.mp (h k (List.mem_cons_self k kt))
    rw [List.filterMap_cons_some hv]
    rw [List.length_cons, List.length_cons,
      ihk (fun x hx => h x (List.mem_cons_of_mem _ hx))]

/-! ### Claim C7 -/

/-- Claim C7: over a loaded project cache whose sorted key list is strictly
sorted and whose keys all resolve in the SKU map (the invariant the claim
assumes), `search_skus_cached p limit` returns exactly the entries whose key
starts with the upper-cased `p`, in lexicographic (list) order of key,
truncated to the first `limit` matches; in particular its length is
`min limit` (number of matching keys). -/
theorem search_by_prefix_correct (st : SkuProjCache) (p : String) (limit : Nat)
    (hsort : st.skuList.Pairwise (fun a b => charListLt a.data b.data = true))
    (hkeys : ∀ k ∈ st.skuList, (dictFind st.skus k).isSome = true) :
    search_skus_cached st p limit
      = ((st.skuList.filter (fun k => pyStartsWith k (pyUpper p))).take limit).filterMap
          (fun k => dictFind st.skus k)
    ∧ (search_skus_cached st p limit).length
      = min limit ((st.skuList.filter (fun k => pyStartsWith k (pyUpper p))).length) := by
  have heq : search_skus_cached st p limit
      = ((st.skuList.filter (fun k => pyStartsWith k (pyUpper p))).take limit).filterMap
          (fun k => dictFind st.skus k) := by
    show (scanMatches (pyUpper p)
        (st.skuList.drop
          (st.skuList.countP (fun s => charListLt s.data (pyUpper p).data)))
        limit (2 * limit)).filterMap (fun k => dictFind st.skus k) = _
    rw [scanMatches_bisect (pyUpper p) st.skuList limit hsort]
  refine ⟨heq, ?_⟩
  rw [heq]
  have hsub : ∀ k ∈ (st.skuList.filter (fun k => pyStartsWith k (pyUpper p))).take limit,
      (dictFind st.skus k).isSome = true := by
    intro k hk
    exact hkeys k (List.mem_of_mem_filter (List.take_subset _ _ hk))
  rw [length_filterMap_of_isSome _ _ hsub, List.length_take]

/-- The four-entry reference cache of Scenario C of the spec. -/
def skuProjFour : SkuProjCache :=
  ⟨[("ABC", ⟨some 1, "ABC", "alpha", "2026-01-01T00:00:00"⟩),
    ("ABD", ⟨some 2, "ABD", "beta", "2026-01-01T00:00:00"⟩),
    ("ABX", ⟨some 3, "ABX", "gamma", "2026-01-01T00:00:00"⟩),
    ("ZZZ", ⟨some 4, "ZZZ", "zeta", "2026-01-01T00:00:00"⟩)],
   ["ABC", "ABD", "ABX", "ZZZ"], 4,
   [("ABC", ⟨some 1, "ABC", "alpha", "2026-01-01T00:00:00"⟩),
    ("ABD", ⟨some 2, "ABD", "beta", "2026-01-01T00:00:00"⟩),
    ("ABX", ⟨some 3, "ABX", "gamma", "2026-01-01T00:00:00"⟩),
    ("ZZZ", ⟨some 4, "ZZZ", "zeta", "2026-01-01T00:00:00"⟩)]⟩

theorem search_by_prefix_correct_witness :
    (skuProjFour.skuList.Pairwise (fun a b => charListLt a.data b.data = true)
      ∧ ∀ k ∈ skuProjFour.skuList, (dictFind skuProjFour.skus k).isSome = true)
    ∧ (search_skus_cached skuProjFour "ab" 5
        = ((skuProjFour.skuList.filter
              (fun k => pyStartsWith k (pyUpper "ab"))).take 5).filterMap
            (fun k => dictFind skuProjFour.skus k)
      ∧ (search_skus_cached skuProjFour "ab" 5).length
        = min 5 ((skuProjFour.skuList.filter
              (fun k => pyStartsWith k (pyUpper "ab"))).length)) :=
  ⟨⟨by decide, by decide⟩,
    search_by_prefix_correct skuProjFour "ab" 5 (by decide) (by decide)⟩

end Uplink
